import Mathlib

/-!
Shallow embedding of `AGG/aggregate_table1.py`: the cross-site "Table 1"
aggregation engine.  Python floats are modelled as rationals (`ℚ`), with
`"{x:.1f}"` formatting modelled as rounding to tenths with ties to even;
Python strings are `String`/`List Char` with ASCII digit/whitespace classes.
A Python function that can raise is embedded with `Except Unit`; one that
returns `None` on failure is embedded with `Option`.
-/

namespace Agg

/-- ASCII whitespace, as recognised by Python's `str.strip` and `\s`. -/
def isSpaceChar (c : Char) : Bool :=
  c = ' ' || c = '\t' || c = '\n' || c = '\r' || c = '\x0b' || c = '\x0c'

/-- Character class `[-\d.]` used by the mean/SD and median/IQR regexes. -/
def classNum (c : Char) : Bool := c = '-' || c.isDigit || c = '.'

/-- Character class `[\d.]` used by the count/percentage regex. -/
def classDP (c : Char) : Bool := c.isDigit || c = '.'

/-- Value of a decimal digit character. -/
def digitVal (c : Char) : ℕ := c.toNat - 48

/-- Decimal digit character for a value below ten. -/
def digitChar (d : ℕ) : Char := Char.ofNat (48 + d)

/-- Numeric value of a big-endian list of decimal digit characters. -/
def natOfDigits (cs : List Char) : ℕ := cs.foldl (fun a c => 10 * a + digitVal c) 0

/-- Fuelled decimal rendering of a natural number (fuel keeps it structural). -/
def natReprAux : ℕ → ℕ → List Char
  | 0, _ => []
  | fuel + 1, n => if n < 10 then [digitChar n] else natReprAux fuel (n / 10) ++ [digitChar (n % 10)]

/-- Decimal digit list of a natural number, as Python's `str` renders it. -/
def natRepr (n : ℕ) : List Char := natReprAux (n + 1) n

/-- Decimal digit list of an integer, as Python's `str` renders it. -/
def intReprL (z : ℤ) : List Char := if z < 0 then '-' :: natRepr z.natAbs else natRepr z.natAbs

/-- Decimal string of an integer, as Python's `str`/f-string renders it. -/
def intStr (z : ℤ) : String := String.mk (intReprL z)

/-- Python's `str.startswith` on our string model. -/
def strStarts (p s : String) : Bool := p.data.isPrefixOf s.data

/-- Python's substring test `p in s` on our string model. -/
def hasSub (p s : String) : Bool := s.data.tails.any (fun t => p.data.isPrefixOf t)

/-- First-match association-list lookup, the model of Python `dict` access. -/
def lookupKey {α : Type} (k : String) : List (String × α) → Option α
  | [] => none
  | (k', v) :: t => if k' = k then some v else lookupKey k t

/-- Python `float` on a run of `[-\d.]` characters, absolute-value part:
optional digits, then optionally a dot and digits, at least one digit. -/
def pyFloatUnsigned (cs : List Char) : Option ℚ :=
  let ip := cs.takeWhile Char.isDigit
  match cs.dropWhile Char.isDigit with
  | [] => if ip.isEmpty then none else some (natOfDigits ip)
  | c :: fr =>
    if c = '.' then
      if ip.isEmpty && fr.isEmpty then none
      else if fr.all Char.isDigit then
        some ((natOfDigits ip : ℚ) + (natOfDigits fr : ℚ) / (10 : ℚ) ^ fr.length)
      else none
    else none

/-- Python `float` applied to a captured `[-\d.]+` group (such groups never
contain whitespace, exponents or a `+` sign); `none` models `ValueError`. -/
def pyFloat (cs : List Char) : Option ℚ :=
  match cs with
  | [] => none
  | c :: r => if c = '-' then (pyFloatUnsigned r).map (fun x => -x) else pyFloatUnsigned cs

/-- Continuation of a digit run: `(["_"] digit)*`, as accepted by Python `int`
after its first digit. -/
def digitsRest : List Char → Bool
  | [] => true
  | c :: rest =>
    if c = '_' then
      match rest with
      | [] => false
      | d :: rest' => d.isDigit && digitsRest rest'
    else c.isDigit && digitsRest rest

/-- Digit run with optional single underscores between digits, as accepted by
Python `int` after the optional sign. -/
def digitsUnd : List Char → Bool
  | [] => false
  | c :: rest => c.isDigit && digitsRest rest

/-- Strip ASCII whitespace from both ends, as Python `int` does. -/
def stripWs (cs : List Char) : List Char :=
  ((cs.dropWhile isSpaceChar).reverse.dropWhile isSpaceChar).reverse

/-- Python `int(s)` on an arbitrary string: strip whitespace, optional sign,
then digits with optional single underscores; `none` models `ValueError`. -/
def pyInt (cs : List Char) : Option ℤ :=
  match stripWs cs with
  | [] => none
  | c :: r =>
    if c = '-' then
      if digitsUnd r then some (-(natOfDigits (r.filter Char.isDigit) : ℤ)) else none
    else if c = '+' then
      if digitsUnd r then some ((natOfDigits (r.filter Char.isDigit) : ℤ)) else none
    else
      if digitsUnd (c :: r) then some ((natOfDigits ((c :: r).filter Char.isDigit) : ℤ)) else none

/-- Anchored match of `([-\d.]+)\s*±\s*([-\d.]+)` (no backtracking is possible:
the group class contains neither whitespace nor `±`, so greedy runs are
maximal); trailing input is ignored, as with `re.match`. -/
def regexMeanSD (cs : List Char) : Option (List Char × List Char) :=
  if (cs.takeWhile classNum).isEmpty then none else
  match (cs.dropWhile classNum).dropWhile isSpaceChar with
  | [] => none
  | c :: r =>
    if c = '±' then
      if (((r.dropWhile isSpaceChar).takeWhile classNum)).isEmpty then none
      else some (cs.takeWhile classNum, (r.dropWhile isSpaceChar).takeWhile classNum)
    else none

/-- Anchored match of `([-\d.]+)\s*\[([-\d.]+),\s*([-\d.]+)\]`; trailing input
is ignored, as with `re.match`. -/
def regexMedianIQR (cs : List Char) : Option (List Char × List Char × List Char) :=
  if (cs.takeWhile classNum).isEmpty then none else
  match (cs.dropWhile classNum).dropWhile isSpaceChar with
  | [] => none
  | c1 :: r2 =>
    if c1 = '[' then
      if (r2.takeWhile classNum).isEmpty then none else
      match r2.dropWhile classNum with
      | [] => none
      | c2 :: r4 =>
        if c2 = ',' then
          if (((r4.dropWhile isSpaceChar).takeWhile classNum)).isEmpty then none else
          match (r4.dropWhile isSpaceChar).dropWhile classNum with
          | [] => none
          | c3 :: _ =>
            if c3 = ']' then
              some (cs.takeWhile classNum, r2.takeWhile classNum,
                (r4.dropWhile isSpaceChar).takeWhile classNum)
            else none
        else none
    else none

/-- Anchored match of `(\d+)\s*\(([\d.]+)%?\)`; trailing input is ignored, as
with `re.match`. -/
def regexCountPct (cs : List Char) : Option (List Char × List Char) :=
  if (cs.takeWhile Char.isDigit).isEmpty then none else
  match (cs.dropWhile Char.isDigit).dropWhile isSpaceChar with
  | [] => none
  | c1 :: r2 =>
    if c1 = '(' then
      if (r2.takeWhile classDP).isEmpty then none else
      match r2.dropWhile classDP with
      | [] => none
      | c2 :: r4 =>
        if c2 = '%' then
          match r4 with
          | [] => none
          | c3 :: _ => if c3 = ')' then some (cs.takeWhile Char.isDigit, r2.takeWhile classDP) else none
        else if c2 = ')' then some (cs.takeWhile Char.isDigit, r2.takeWhile classDP)
        else none
    else none

/-- Sentinel strings treated as "no value" by every parse method. -/
def isSentinel (s : String) : Prop := s = "nan" ∨ s = "<NA>" ∨ s = ""

instance (s : String) : Decidable (isSentinel s) := by unfold isSentinel; infer_instance

/-- StatParser.parse_mean_sd; input `none` models a non-string (JSON null or a
missing key); `Except.error` models an uncaught `ValueError` from `float`. -/
def parse_mean_sd (v : Option String) : Except Unit (Option (ℚ × ℚ)) :=
  match v with
  | none => .ok none
  | some s =>
    if isSentinel s then .ok none
    else
      match regexMeanSD s.data with
      | none => .ok none
      | some (g1, g2) =>
        match pyFloat g1, pyFloat g2 with
        | some a, some b => .ok (some (a, b))
        | _, _ => .error ()

/-- StatParser.parse_median_iqr. -/
def parse_median_iqr (v : Option String) : Except Unit (Option (ℚ × ℚ × ℚ)) :=
  match v with
  | none => .ok none
  | some s =>
    if isSentinel s then .ok none
    else
      match regexMedianIQR s.data with
      | none => .ok none
      | some (g1, g2, g3) =>
        match pyFloat g1, pyFloat g2, pyFloat g3 with
        | some a, some b, some c => .ok (some (a, b, c))
        | _, _, _ => .error ()

/-- StatParser.parse_count_pct; the first group is `\d+`, so Python's `int`
on it always succeeds. -/
def parse_count_pct (v : Option String) : Except Unit (Option (ℕ × ℚ)) :=
  match v with
  | none => .ok none
  | some s =>
    if isSentinel s then .ok none
    else
      match regexCountPct s.data with
      | none => .ok none
      | some (g1, g2) =>
        match pyFloat g2 with
        | some p => .ok (some (natOfDigits g1, p))
        | none => .error ()

/-- StatParser.parse_n; the `ValueError` from `int` is caught, so this one is
total. -/
def parse_n (v : Option String) : Option ℤ :=
  match v with
  | none => none
  | some s => if isSentinel s then none else pyInt s.data

/-- Round a rational to the nearest integer, ties to even. -/
def rheZ (x : ℚ) : ℤ :=
  let f := ⌊x⌋
  let r := x - f
  if r < 1 / 2 then f else if 1 / 2 < r then f + 1 else if f % 2 = 0 then f else f + 1

/-- Python `"{x:.1f}"` on our rational model of floats: round `|x| * 10` to the
nearest integer (ties to even) and print sign, integer part, dot, tenths. -/
def formatFix1 (q : ℚ) : String :=
  (if q < 0 then "-" else "") ++ String.mk (natRepr ((rheZ (|q| * 10)).toNat / 10)) ++
    "." ++ String.mk (natRepr ((rheZ (|q| * 10)).toNat % 10))

/-- StatParser.format_mean_sd: `f"{mean:.1f} ± {sd:.1f}"`. -/
def format_mean_sd (mean sd : ℚ) : String := formatFix1 mean ++ " ± " ++ formatFix1 sd

/-- StatParser.format_median_iqr: `f"{median:.1f} [{q1:.1f}, {q3:.1f}]"`. -/
def format_median_iqr (median q1 q3 : ℚ) : String :=
  formatFix1 median ++ " [" ++ formatFix1 q1 ++ ", " ++ formatFix1 q3 ++ "]"

/-- StatParser.format_count_pct: `f"{count} ({pct:.1f}%)"`. -/
def format_count_pct (count : ℕ) (pct : ℚ) : String :=
  intStr count ++ " (" ++ formatFix1 pct ++ "%)"

/-- np.mean on a list of rationals. -/
def npMean (l : List ℚ) : ℚ := l.sum / l.length

/-- Insert into an ascending list, preserving order. -/
def insortQ (x : ℚ) : List ℚ → List ℚ
  | [] => [x]
  | y :: ys => if x ≤ y then x :: y :: ys else y :: insortQ x ys

/-- Ascending sort of a list of rationals (insertion sort; the sorted order of
a multiset is unique, so this agrees with NumPy's sort). -/
def sortQ (l : List ℚ) : List ℚ := l.foldr insortQ []

/-- np.median: middle element of the sorted list, or the average of the two
middle elements when the length is even. -/
def npMedian (l : List ℚ) : ℚ :=
  let s := sortQ l
  if l.length % 2 = 1 then s.getD (l.length / 2) 0
  else (s.getD (l.length / 2 - 1) 0 + s.getD (l.length / 2) 0) / 2

/-- TableAggregator.aggregate_n: sum the present values, `"0"` if none. -/
def aggregate_n (values : List (Option ℤ)) : String :=
  let valid := values.reduceOption
  if valid = [] then "0" else intStr valid.sum

/-- TableAggregator.aggregate_means: unweighted mean of the site means and of
the site SDs; `"nan"` if no site has a value. -/
def aggregate_means (values : List (Option (ℚ × ℚ))) : String :=
  let valid := values.reduceOption
  if valid = [] then "nan"
  else format_mean_sd (npMean (valid.map Prod.fst)) (npMean (valid.map Prod.snd))

/-- TableAggregator.aggregate_medians: elementwise median of the site medians,
Q1s and Q3s; `"nan"` if no site has a value. -/
def aggregate_medians (values : List (Option (ℚ × ℚ × ℚ))) : String :=
  let valid := values.reduceOption
  if valid = [] then "nan"
  else
    format_median_iqr (npMedian (valid.map (fun v => v.1)))
      (npMedian (valid.map (fun v => v.2.1))) (npMedian (valid.map (fun v => v.2.2)))

/-- TableAggregator.aggregate_counts: sum the present counts and recompute the
percentage from `total_n`; `"0 (0.0%)"` when nothing is present or `total_n`
is zero. -/
def aggregate_counts (values : List (Option (ℕ × ℚ))) (total_n : ℤ) : String :=
  let valid := values.reduceOption
  if valid = [] ∨ total_n = 0 then "0 (0.0%)"
  else
    format_count_pct (valid.map Prod.fst).sum
      ((((valid.map Prod.fst).sum : ℚ) / (total_n : ℚ)) * 100)

/-- FieldMap: one cohort's mapping from variable label to its statistic string
(`none` models a JSON null value). -/
abbrev FieldMap : Type := List (String × Option String)

/-- SiteDocument: one site's parsed JSON document (`date_generated` is
informational only and not consumed by the aggregation pipeline). -/
structure Site where
  site_name : String
  cohort_groups : List (String × FieldMap)

/-- Sex-label rewriting done inside normalize_field_names. -/
def renameKey (k : String) : String :=
  if k = "Sex: male" then "Sex: Male" else if k = "Sex: female" then "Sex: Female" else k

/-- Assignment `d[k] = v` on a Python dict modelled as an association list:
replace in place if the key exists, else append. -/
def upsert (m : FieldMap) (k : String) (v : Option String) : FieldMap :=
  match m with
  | [] => [(k, v)]
  | (k', v') :: rest => if k' = k then (k', v) :: rest else (k', v') :: upsert rest k v

/-- normalize_field_names: rebuild the map, renaming Sex labels. -/
def normalize_field_names (m : FieldMap) : FieldMap :=
  m.foldl (fun acc p => upsert acc (renameKey p.1) p.2) []

/-- Per-document part of load_json_files: normalize every cohort's FieldMap
(the file discovery and JSON decoding are I/O and are not modelled). -/
def loadNormalize (data : List Site) : List Site :=
  data.map (fun s =>
    { site_name := s.site_name
      cohort_groups := s.cohort_groups.map (fun cm => (cm.1, normalize_field_names cm.2)) })

/-- Priority field ordering used by get_all_field_names. -/
def priorityFields : List String :=
  ["N", "Unique Patients", "N with ICU stay",
   "Age (mean ± SD)", "Age (median [IQR])",
   "BMI (mean ± SD)", "BMI (median [IQR])"]

/-- Union of all field labels across sites and cohorts (first-seen order;
get_all_field_names only consumes it as a set). -/
def allKeys (data : List Site) : List String :=
  (data.flatMap (fun s => s.cohort_groups.flatMap (fun cm => cm.2.map Prod.fst))).dedup

/-- Ascending insertion into a sorted list of strings (Python `sorted` order:
lexicographic on code points). -/
def insortS (x : String) : List String → List String
  | [] => [x]
  | y :: ys => if ¬ y < x then x :: y :: ys else y :: insortS x ys

/-- Ascending sort of strings, the model of Python `sorted`. -/
def sortS (l : List String) : List String := l.foldr insortS []

/-- get_all_field_names: priority fields that occur, then the remaining fields
alphabetically. -/
def allFieldNames (data : List Site) : List String :=
  let fields := allKeys data
  priorityFields.filter (fun p => p ∈ fields) ++
    sortS (fields.filter (fun k => k ∉ priorityFields))

/-- Python `site_data['cohort_groups'].get(cohort, {})`. -/
def getCohortMap (site : Site) (cohort : String) : FieldMap :=
  (lookupKey cohort site.cohort_groups).getD []

/-- Values of one field across all sites for one cohort, as handed to the
parsers: `cohort_data.get(field)` yields None both for a missing key and for a
stored null. -/
def siteValues (data : List Site) (cohort field : String) : List (Option String) :=
  data.map (fun s => (lookupKey field (getCohortMap s cohort)).join)

/-- First pass of aggregate_data: each site's `cohort_data.get('N', '0')`,
parsed with parse_n. -/
def firstPassN (data : List Site) (cohort : String) : List (Option ℤ) :=
  data.map (fun s =>
    parse_n (match lookupKey "N" (getCohortMap s cohort) with
             | none => some "0"
             | some v => v))

/-- aggregate_data's `total_n`: `int(total_n_str) if total_n_str != '0' else 0`
(the `getD 0` branch is unreachable: `pyInt` always succeeds on `intStr`
output, which is proved below). -/
def totalN (data : List Site) (cohort : String) : ℤ :=
  let s := aggregate_n (firstPassN data cohort)
  if s = "0" then 0 else (pyInt s.data).getD 0

/-- Sum of the parseable first-pass N values; proved equal to totalN. -/
def nSum (data : List Site) (cohort : String) : ℤ :=
  ((firstPassN data cohort).reduceOption).sum

/-- Statistic families assigned by the field-name dispatch. -/
inductive StatKind
  | count
  | meanSD
  | medianIQR
  | countPct
deriving DecidableEq

/-- Condition of the Count branch of the dispatch in aggregate_data. -/
def countCond (field : String) : Prop :=
  field = "N" ∨ strStarts "N " field = true ∨ field = "Unique Patients" ∨
    hasSub "Patients" field = true

instance (field : String) : Decidable (countCond field) := by unfold countCond; infer_instance

/-- Field-name dispatch of aggregate_data: the if/elif chain choosing the
statistic family. -/
def classify (field : String) : StatKind :=
  if countCond field then .count
  else if hasSub "(mean ± SD)" field then .meanSD
  else if hasSub "(median [IQR])" field then .medianIQR
  else .countPct

/-- Second pass of aggregate_data for one (cohort, field) cell: parse every
site's value with the family's parser and pool; a parser exception propagates. -/
def aggCell (data : List Site) (cohort field : String) (tn : ℤ) : Except Unit String :=
  let values := siteValues data cohort field
  match classify field with
  | .count => .ok (aggregate_n (values.map parse_n))
  | .meanSD => (values.mapM parse_mean_sd).map aggregate_means
  | .medianIQR => (values.mapM parse_median_iqr).map aggregate_medians
  | .countPct => (values.mapM parse_count_pct).map (fun ps => aggregate_counts ps tn)

/-- Fixed cohort list of aggregate_data. -/
def cohortsList : List String :=
  ["antibiotics_only", "intrapleural_lytics", "vats_cohort", "total"]

/-- aggregate_data: for each cohort, compute total_n in a first pass, then
aggregate every field of the universe (cohort → field → pooled string). -/
def aggregateTable (data : List Site) : Except Unit (List (String × List (String × String))) :=
  cohortsList.mapM (fun cohort =>
    ((allFieldNames data).mapM (fun f =>
        (aggCell data cohort f (totalN data cohort)).map (fun s => (f, s)))).map
      (fun rows => (cohort, rows)))

/-- Cell of create_site_based_tables: `cohort_data.get(field, '')`, then None
and `'nan'` are replaced by `'nan'`. -/
def rawCell (fm : FieldMap) (field : String) : String :=
  match lookupKey field fm with
  | none => ""
  | some none => "nan"
  | some (some s) => if s = "nan" then "nan" else s

/-- create_site_based_tables: one row per site (site name, then the raw cell
of every field of the universe for the selected cohort). -/
def siteTable (data : List Site) (cohort : String) : List (String × List (String × String)) :=
  data.map (fun site =>
    (site.site_name, (allFieldNames data).map (fun f => (f, rawCell (getCohortMap site cohort) f))))

/-- Signed decimal with exactly one decimal place, the structured form of the
"valid strings" of the round-trip property. -/
structure Dec1 where
  neg : Bool
  ip : ℕ
  tenth : ℕ

/-- Canonical one-decimal-place numbers: the tenths are a single digit and
`-0.0` is excluded. -/
def Dec1.canon (d : Dec1) : Prop :=
  d.tenth < 10 ∧ (d.neg = true → ¬(d.ip = 0 ∧ d.tenth = 0))

/-- Character rendering of a one-decimal-place number, e.g. `-12.3`. -/
def dec1Str (d : Dec1) : List Char :=
  (if d.neg then ['-'] else []) ++ natRepr d.ip ++ '.' :: [digitChar d.tenth]

/-- Rational value of a one-decimal-place number. -/
def dec1Val (d : Dec1) : ℚ :=
  (if d.neg then -1 else 1) * ((d.ip : ℚ) + (d.tenth : ℚ) / 10)

/-- Canonical mean-SD string built from two one-decimal-place numbers. -/
def meanSDStr (d1 d2 : Dec1) : String :=
  String.mk (dec1Str d1 ++ ' ' :: '±' :: ' ' :: dec1Str d2)

/-- Canonical median-IQR string built from three one-decimal-place numbers. -/
def medianIQRStr (d1 d2 d3 : Dec1) : String :=
  String.mk (dec1Str d1 ++ ' ' :: '[' :: (dec1Str d2 ++ ',' :: ' ' :: (dec1Str d3 ++ [']'])))

/-! Helper lemmas. -/

theorem takeWhile_all {α : Type} {p : α → Bool} {xs : List α} (h : ∀ x ∈ xs, p x = true) :
    xs.takeWhile p = xs := by
  induction xs with
  | nil => rfl
  | cons a t ih =>
    simp [List.takeWhile_cons_of_pos (h a (by simp)), ih (fun x hx => h x (by simp [hx]))]

theorem dropWhile_all {α : Type} {p : α → Bool} {xs : List α} (h : ∀ x ∈ xs, p x = true) :
    xs.dropWhile p = [] := by
  induction xs with
  | nil => rfl
  | cons a t ih =>
    simp [List.dropWhile_cons_of_pos (h a (by simp)), ih (fun x hx => h x (by simp [hx]))]

theorem takeWhile_append_cons {α : Type} {p : α → Bool} {xs : List α} {y : α} (ys : List α)
    (h : ∀ x ∈ xs, p x = true) (hy : p y = false) :
    (xs ++ y :: ys).takeWhile p = xs := by
  induction xs with
  | nil => simp [List.takeWhile_cons, hy]
  | cons a t ih =>
    simp [List.takeWhile_cons_of_pos (h a (by simp)), ih (fun x hx => h x (by simp [hx]))]

theorem dropWhile_append_cons {α : Type} {p : α → Bool} {xs : List α} {y : α} (ys : List α)
    (h : ∀ x ∈ xs, p x = true) (hy : p y = false) :
    (xs ++ y :: ys).dropWhile p = y :: ys := by
  induction xs with
  | nil => simp [List.dropWhile_cons, hy]
  | cons a t ih =>
    simp [List.dropWhile_cons_of_pos (h a (by simp)), ih (fun x hx => h x (by simp [hx]))]

theorem toNat_digitChar {d : ℕ} (h : d < 10) : (digitChar d).toNat = 48 + d := by
  interval_cases d <;> rfl

theorem isDigit_digitChar {d : ℕ} (h : d < 10) : (digitChar d).isDigit = true := by
  interval_cases d <;> rfl

theorem digitVal_digitChar {d : ℕ} (h : d < 10) : digitVal (digitChar d) = d := by
  interval_cases d <;> rfl

theorem not_space_of_digit {c : Char} (h : c.isDigit = true) : isSpaceChar c = false := by
  unfold isSpaceChar
  by_contra hc
  simp only [Bool.not_eq_false, Bool.or_eq_true, decide_eq_true_eq] at hc
  rcases hc with ((((rfl | rfl) | rfl) | rfl) | rfl) | rfl <;> exact absurd h (by decide)

theorem classNum_of_digit {c : Char} (h : c.isDigit = true) : classNum c = true := by
  simp [classNum, h]

theorem classDP_of_digit {c : Char} (h : c.isDigit = true) : classDP c = true := by
  simp [classDP, h]

theorem digit_ne {c c' : Char} (h : c.isDigit = true) (h' : c'.isDigit = false) : c ≠ c' := by
  rintro rfl; rw [h] at h'; exact absurd h' (by simp)

theorem natOfDigits_append_one (a : List Char) (c : Char) :
    natOfDigits (a ++ [c]) = 10 * natOfDigits a + digitVal c := by
  simp [natOfDigits, List.foldl_append]

theorem natReprAux_spec :
    ∀ f n, n < f →
      natOfDigits (natReprAux f n) = n ∧ natReprAux f n ≠ [] ∧
        ∀ c ∈ natReprAux f n, c.isDigit = true := by
  intro f
  induction f with
  | zero => intro n hn; omega
  | succ f ih =>
    intro n hn
    by_cases h10 : n < 10
    · refine ⟨?_, ?_, ?_⟩ <;> simp only [natReprAux, if_pos h10]
      · simp [natOfDigits, digitVal_digitChar h10]
      · simp
      · simpa using isDigit_digitChar h10
    · have hdiv : n / 10 < f := by omega
      obtain ⟨h1, h2, h3⟩ := ih (n / 10) hdiv
      refine ⟨?_, ?_, ?_⟩ <;> simp only [natReprAux, if_neg h10]
      · rw [natOfDigits_append_one, h1, digitVal_digitChar (by omega)]
        omega
      · simp
      · intro c hc
        rcases List.mem_append.mp hc with hc | hc
        · exact h3 c hc
        · simp only [List.mem_singleton] at hc
          subst hc; exact isDigit_digitChar (by omega)

theorem natOfDigits_natRepr (n : ℕ) : natOfDigits (natRepr n) = n :=
  (natReprAux_spec (n + 1) n (by omega)).1

theorem natRepr_ne_nil (n : ℕ) : natRepr n ≠ [] :=
  (natReprAux_spec (n + 1) n (by omega)).2.1

theorem natRepr_digits (n : ℕ) : ∀ c ∈ natRepr n, c.isDigit = true :=
  (natReprAux_spec (n + 1) n (by omega)).2.2

theorem dropWhile_none {α : Type} {p : α → Bool} {xs : List α}
    (h : ∀ x ∈ xs, p x = false) : xs.dropWhile p = xs := by
  cases xs with
  | nil => rfl
  | cons a t => simp [List.dropWhile_cons, h a (by simp)]

theorem stripWs_of_nonspace {cs : List Char} (h : ∀ c ∈ cs, isSpaceChar c = false) :
    stripWs cs = cs := by
  unfold stripWs
  rw [dropWhile_none h, dropWhile_none (fun c hc => h c (List.mem_reverse.mp hc)),
    List.reverse_reverse]

theorem digitsRest_all {cs : List Char} (h : ∀ c ∈ cs, c.isDigit = true) :
    digitsRest cs = true := by
  induction cs with
  | nil => rfl
  | cons c t ih =>
    have hc : c.isDigit = true := h c (by simp)
    have hne : c ≠ '_' := digit_ne hc (by decide)
    unfold digitsRest
    rw [if_neg hne, hc, Bool.true_and]
    exact ih (fun x hx => h x (by simp [hx]))

theorem digitsUnd_all {cs : List Char} (hne : cs ≠ []) (h : ∀ c ∈ cs, c.isDigit = true) :
    digitsUnd cs = true := by
  cases cs with
  | nil => exact absurd rfl hne
  | cons c t =>
    simp only [digitsUnd, h c (by simp), Bool.true_and]
    exact digitsRest_all (fun x hx => h x (by simp [hx]))

theorem filter_digits_all {cs : List Char} (h : ∀ c ∈ cs, c.isDigit = true) :
    cs.filter Char.isDigit = cs :=
  List.filter_eq_self.mpr h

theorem pyInt_intRepr (z : ℤ) : pyInt (intReprL z) = some z := by
  have habs : ∀ n : ℕ, digitsUnd (natRepr n) = true :=
    fun n => digitsUnd_all (natRepr_ne_nil n) (natRepr_digits n)
  have hfil : ∀ n : ℕ, (natRepr n).filter Char.isDigit = natRepr n :=
    fun n => filter_digits_all (natRepr_digits n)
  by_cases hz : z < 0
  · have hrepr : intReprL z = '-' :: natRepr z.natAbs := by simp [intReprL, hz]
    have hstrip : stripWs (intReprL z) = '-' :: natRepr z.natAbs := by
      rw [hrepr]
      refine stripWs_of_nonspace ?_
      intro c hc
      rcases List.mem_cons.mp hc with rfl | hc
      · decide
      · exact not_space_of_digit (natRepr_digits _ c hc)
    unfold pyInt
    rw [hstrip]
    have h1 : digitsUnd (natRepr z.natAbs) = true := habs _
    simp [h1, hfil, natOfDigits_natRepr]
    rw [abs_of_neg hz, neg_neg]
  · obtain ⟨d, ds, hds⟩ := List.exists_cons_of_ne_nil (natRepr_ne_nil z.natAbs)
    have hd : d.isDigit = true := natRepr_digits z.natAbs d (by rw [hds]; simp)
    have hrepr : intReprL z = natRepr z.natAbs := by simp [intReprL, hz]
    have hstrip : stripWs (intReprL z) = d :: ds := by
      rw [hrepr, hds]
      refine stripWs_of_nonspace ?_
      intro c hc
      exact not_space_of_digit (natRepr_digits _ c (by rw [hds]; exact hc))
    unfold pyInt
    rw [hstrip]
    have hne1 : d ≠ '-' := digit_ne hd (by decide)
    have hne2 : d ≠ '+' := digit_ne hd (by decide)
    have h1 : digitsUnd (d :: ds) = true := by rw [← hds]; exact habs _
    simp only [if_neg hne1, if_neg hne2, h1, if_true, reduceIte]
    rw [← hds, hfil, natOfDigits_natRepr]
    congr 1
    omega

theorem intReprL_data (z : ℤ) : (intStr z).data = intReprL z := rfl

theorem intStr_eq_zero_iff (z : ℤ) : intStr z = "0" ↔ z = 0 := by
  constructor
  · intro h
    have h0 : intStr (0 : ℤ) = "0" := rfl
    have : pyInt (intStr z).data = pyInt (intStr (0 : ℤ)).data := by rw [h, h0]
    rw [intReprL_data, intReprL_data, pyInt_intRepr, pyInt_intRepr] at this
    exact Option.some_injective _ this
  · rintro rfl; rfl

theorem aggregate_n_eq (vs : List (Option ℤ)) : aggregate_n vs = intStr vs.reduceOption.sum := by
  unfold aggregate_n
  by_cases h : vs.reduceOption = []
  · rw [if_pos h, h]; rfl
  · rw [if_neg h]

theorem totalN_eq (data : List Site) (cohort : String) : totalN data cohort = nSum data cohort := by
  unfold totalN nSum
  rw [aggregate_n_eq]
  by_cases h : intStr ((firstPassN data cohort).reduceOption).sum = "0"
  · rw [if_pos h]
    exact ((intStr_eq_zero_iff _).mp h).symm
  · rw [if_neg h, intReprL_data, pyInt_intRepr]
    rfl

theorem reduceOption_sum_getD (l : List (Option ℤ)) :
    l.reduceOption.sum = (l.map (fun o => o.getD 0)).sum := by
  induction l with
  | nil => rfl
  | cons a t ih => cases a <;> simp [List.reduceOption_cons_of_some, ih]

theorem secondPassN (data : List Site) (cohort : String) :
    ((siteValues data cohort "N").map parse_n).reduceOption.sum = nSum data cohort := by
  unfold nSum
  rw [reduceOption_sum_getD, reduceOption_sum_getD]
  unfold siteValues firstPassN
  simp only [List.map_map]
  congr 1
  refine List.map_congr_left ?_
  intro s _
  simp only [Function.comp_apply]
  cases hlk : lookupKey "N" (getCohortMap s cohort) with
  | none => rfl
  | some v => rfl

theorem lookupKey_upsert_self (m : FieldMap) (k : String) (v : Option String) :
    lookupKey k (upsert m k v) = some v := by
  induction m with
  | nil => simp [upsert, lookupKey]
  | cons p t ih =>
    obtain ⟨k', v'⟩ := p
    by_cases h : k' = k
    · subst h; simp [upsert, lookupKey]
    · simp [upsert, lookupKey, h, ih]

theorem lookupKey_upsert_ne (m : FieldMap) {k k' : String} (v : Option String) (h : k' ≠ k) :
    lookupKey k' (upsert m k v) = lookupKey k' m := by
  have h' : k ≠ k' := Ne.symm h
  induction m with
  | nil => simp [upsert, lookupKey, h']
  | cons p t ih =>
    obtain ⟨k'', v''⟩ := p
    by_cases hk : k'' = k
    · subst hk; simp [upsert, lookupKey, h']
    · simp [upsert, lookupKey, hk, ih]

theorem upsert_of_not_mem (m : FieldMap) {k : String} (v : Option String)
    (h : lookupKey k m = none) : upsert m k v = m ++ [(k, v)] := by
  induction m with
  | nil => rfl
  | cons p t ih =>
    obtain ⟨k', v'⟩ := p
    by_cases hk : k' = k
    · subst hk; simp [lookupKey] at h
    · simp only [lookupKey, if_neg hk] at h
      simp [upsert, hk, ih h]

theorem length_upsert_le (m : FieldMap) (k : String) (v : Option String) :
    (upsert m k v).length ≤ m.length + 1 := by
  induction m with
  | nil => simp [upsert]
  | cons p t ih =>
    obtain ⟨k', v'⟩ := p
    by_cases hk : k' = k <;> simp [upsert, hk] <;> omega

theorem length_upsert_isSome (m : FieldMap) {k : String} (v : Option String)
    (h : (lookupKey k m).isSome) : (upsert m k v).length = m.length := by
  induction m with
  | nil => simp [lookupKey] at h
  | cons p t ih =>
    obtain ⟨k', v'⟩ := p
    by_cases hk : k' = k
    · subst hk; simp [upsert]
    · simp only [lookupKey, if_neg hk] at h
      simp [upsert, hk, ih h]

theorem isSome_lookup_upsert (m : FieldMap) {k' : String} (k : String) (v : Option String)
    (h : (lookupKey k' m).isSome) : (lookupKey k' (upsert m k v)).isSome := by
  by_cases hk : k' = k
  · subst hk; simp [lookupKey_upsert_self]
  · rwa [lookupKey_upsert_ne _ _ hk]

/-- Folding step of normalize_field_names. -/
def normStep (acc : FieldMap) (p : String × Option String) : FieldMap :=
  upsert acc (renameKey p.1) p.2

theorem normalize_eq_foldl (m : FieldMap) :
    normalize_field_names m = m.foldl normStep [] := rfl

theorem length_foldl_norm_le (m : FieldMap) :
    ∀ s : FieldMap, (m.foldl normStep s).length ≤ s.length + m.length := by
  induction m with
  | nil => intro s; simp
  | cons p t ih =>
    intro s
    calc (List.foldl normStep s (p :: t)).length
        = (t.foldl normStep (normStep s p)).length := rfl
      _ ≤ (normStep s p).length + t.length := ih _
      _ ≤ s.length + 1 + t.length := by
          have h2 : (normStep s p).length ≤ s.length + 1 := length_upsert_le s (renameKey p.1) p.2
          omega
      _ = s.length + (p :: t).length := by simp; omega

theorem isSome_lookup_foldl_norm (m : FieldMap) {K : String} :
    ∀ s : FieldMap, (lookupKey K s).isSome → (lookupKey K (m.foldl normStep s)).isSome := by
  induction m with
  | nil => intro s h; simpa using h
  | cons p t ih =>
    intro s h
    exact ih _ (isSome_lookup_upsert s _ _ h)

theorem lookup_foldl_norm_no_match (m : FieldMap) {K : String}
    (hm : ∀ p ∈ m, renameKey p.1 ≠ K) :
    ∀ s : FieldMap, lookupKey K (m.foldl normStep s) = lookupKey K s := by
  induction m with
  | nil => intro s; rfl
  | cons p t ih =>
    intro s
    have hp : renameKey p.1 ≠ K := hm p (by simp)
    have ht : ∀ q ∈ t, renameKey q.1 ≠ K := fun q hq => hm q (by simp [hq])
    rw [List.foldl_cons, ih ht, normStep, lookupKey_upsert_ne _ _ (fun h => hp h.symm)]

theorem lookupKey_append {α : Type} (k : String) (a b : List (String × α)) :
    lookupKey k (a ++ b) =
      match lookupKey k a with
      | some v => some v
      | none => lookupKey k b := by
  induction a with
  | nil => simp [lookupKey]
  | cons p t ih =>
    obtain ⟨k', v'⟩ := p
    by_cases hk : k' = k <;> simp [lookupKey, hk, ih]

theorem foldl_norm_fresh (m : FieldMap) :
    ∀ s : FieldMap,
      (∀ p ∈ m, lookupKey (renameKey p.1) s = none) →
      (m.map (fun p => renameKey p.1)).Nodup →
      m.foldl normStep s = s ++ m.map (fun p => (renameKey p.1, p.2)) := by
  induction m with
  | nil => intro s _ _; simp
  | cons p t ih =>
    intro s hfresh hnodup
    have hps : lookupKey (renameKey p.1) s = none := hfresh p (by simp)
    have hstep : normStep s p = s ++ [(renameKey p.1, p.2)] := upsert_of_not_mem s _ hps
    have hnd : (t.map (fun q => renameKey q.1)).Nodup := by
      simpa using hnodup.of_cons
    have hph : ∀ q ∈ t, renameKey q.1 ≠ renameKey p.1 := by
      intro q hq heq
      have hnc := List.nodup_cons.mp (by rw [List.map_cons] at hnodup; exact hnodup)
      exact hnc.1 (heq ▸ List.mem_map_of_mem (fun r => renameKey r.1) hq)
    have hfresh' : ∀ q ∈ t, lookupKey (renameKey q.1) (s ++ [(renameKey p.1, p.2)]) = none := by
      intro q hq
      rw [lookupKey_append, hfresh q (by simp [hq])]
      have hne : renameKey p.1 ≠ renameKey q.1 := fun h => hph q hq h.symm
      simp [lookupKey, hne]
    rw [List.foldl_cons, hstep, ih _ hfresh' hnd]
    simp

theorem normalize_nodup_renamed (m : FieldMap)
    (hnodup : (m.map (fun p => renameKey p.1)).Nodup) :
    normalize_field_names m = m.map (fun p => (renameKey p.1, p.2)) := by
  rw [normalize_eq_foldl, foldl_norm_fresh m [] (fun p _ => rfl) hnodup]
  simp

theorem rheZ_intCast (n : ℤ) : rheZ (n : ℚ) = n := by
  unfold rheZ
  rw [Int.floor_intCast]
  norm_num

theorem rheZ_natCast (n : ℕ) : rheZ (n : ℚ) = n := by
  have h : ((n : ℤ) : ℚ) = (n : ℚ) := by push_cast; ring
  rw [← h, rheZ_intCast]

theorem natOfDigits_singleton (c : Char) : natOfDigits [c] = digitVal c := by
  simp [natOfDigits]

theorem natRepr_small {t : ℕ} (h : t < 10) : natRepr t = [digitChar t] := by
  unfold natRepr natReprAux
  simp [h]

theorem dec1Str_all_classNum (d : Dec1) (h : d.tenth < 10) :
    ∀ c ∈ dec1Str d, classNum c = true := by
  intro c hc
  unfold dec1Str at hc
  rcases List.mem_append.mp hc with hc | hc
  · rcases List.mem_append.mp hc with hc | hc
    · by_cases hn : d.neg
      · rw [if_pos hn] at hc
        simp only [List.mem_singleton] at hc
        subst hc; decide
      · rw [if_neg hn] at hc
        simp at hc
    · exact classNum_of_digit (natRepr_digits _ c hc)
  · rcases List.mem_cons.mp hc with rfl | hc
    · decide
    · simp only [List.mem_singleton] at hc
      subst hc
      exact classNum_of_digit (isDigit_digitChar h)

theorem dec1Str_head (d : Dec1) :
    ∃ c cs, dec1Str d = c :: cs ∧ (c = '-' ∨ c.isDigit = true) := by
  unfold dec1Str
  by_cases hn : d.neg
  · exact ⟨'-', natRepr d.ip ++ '.' :: [digitChar d.tenth], by rw [if_pos hn]; exact List.singleton_append, Or.inl rfl⟩
  · obtain ⟨c, cs, hcs⟩ := List.exists_cons_of_ne_nil (natRepr_ne_nil d.ip)
    refine ⟨c, cs ++ '.' :: [digitChar d.tenth], ?_,
      Or.inr (natRepr_digits _ c (by rw [hcs]; simp))⟩
    rw [if_neg hn, hcs]
    simp

theorem dec1Str_head_props (d : Dec1) :
    ∃ c cs, dec1Str d = c :: cs ∧ isSpaceChar c = false ∧ c ≠ 'n' ∧ c ≠ '<' := by
  obtain ⟨c, cs, hcs, hc⟩ := dec1Str_head d
  refine ⟨c, cs, hcs, ?_, ?_, ?_⟩
  · rcases hc with rfl | hc
    · decide
    · exact not_space_of_digit hc
  · rcases hc with rfl | hc
    · decide
    · exact digit_ne hc (by decide)
  · rcases hc with rfl | hc
    · decide
    · exact digit_ne hc (by decide)

theorem pyFloatUnsigned_dec1 (ip t : ℕ) (h : t < 10) :
    pyFloatUnsigned (natRepr ip ++ '.' :: [digitChar t]) =
      some ((ip : ℚ) + (t : ℚ) / 10) := by
  obtain ⟨c0, cs0, hcs⟩ := List.exists_cons_of_ne_nil (natRepr_ne_nil ip)
  have htake : (natRepr ip ++ '.' :: [digitChar t]).takeWhile Char.isDigit = natRepr ip :=
    takeWhile_append_cons _ (natRepr_digits _) (by decide)
  have hdrop : (natRepr ip ++ '.' :: [digitChar t]).dropWhile Char.isDigit =
      '.' :: [digitChar t] :=
    dropWhile_append_cons _ (natRepr_digits _) (by decide)
  unfold pyFloatUnsigned
  rw [htake, hdrop]
  have hie : (natRepr ip).isEmpty = false := by rw [hcs]; rfl
  simp only [hie, Bool.false_and, if_pos rfl, Bool.false_eq_true, if_false,
    List.all_cons, List.all_nil, isDigit_digitChar h, Bool.and_true, if_true,
    natOfDigits_natRepr, natOfDigits_singleton, digitVal_digitChar h, List.length_singleton,
    pow_one, reduceIte]

theorem pyFloat_dec1 (d : Dec1) (h : d.tenth < 10) :
    pyFloat (dec1Str d) = some (dec1Val d) := by
  by_cases hn : d.neg
  · have hstr : dec1Str d = '-' :: (natRepr d.ip ++ '.' :: [digitChar d.tenth]) := by
      unfold dec1Str; rw [if_pos hn]; rfl
    rw [hstr,
      show pyFloat ('-' :: (natRepr d.ip ++ '.' :: [digitChar d.tenth])) =
          (pyFloatUnsigned (natRepr d.ip ++ '.' :: [digitChar d.tenth])).map (fun x => -x)
        from rfl,
      pyFloatUnsigned_dec1 d.ip d.tenth h]
    unfold dec1Val
    rw [if_pos hn]
    simp only [Option.map_some']
    congr 1
    ring
  · obtain ⟨c0, cs0, hcs⟩ := List.exists_cons_of_ne_nil (natRepr_ne_nil d.ip)
    have hc0 : c0.isDigit = true := natRepr_digits _ c0 (by rw [hcs]; simp)
    have hstr2 : dec1Str d = c0 :: (cs0 ++ '.' :: [digitChar d.tenth]) := by
      unfold dec1Str; rw [if_neg hn, hcs]; simp
    rw [hstr2,
      show pyFloat (c0 :: (cs0 ++ '.' :: [digitChar d.tenth])) =
          if c0 = '-' then (pyFloatUnsigned (cs0 ++ '.' :: [digitChar d.tenth])).map (fun x => -x)
          else pyFloatUnsigned (c0 :: (cs0 ++ '.' :: [digitChar d.tenth]))
        from rfl,
      if_neg (digit_ne hc0 (by decide)),
      show c0 :: (cs0 ++ '.' :: [digitChar d.tenth]) =
          natRepr d.ip ++ '.' :: [digitChar d.tenth] by rw [hcs]; simp,
      pyFloatUnsigned_dec1 d.ip d.tenth h]
    unfold dec1Val
    rw [if_neg hn]
    congr 1
    ring

theorem formatFix1_dec1 (d : Dec1) (h : d.canon) :
    formatFix1 (dec1Val d) = String.mk (dec1Str d) := by
  obtain ⟨ht, hz⟩ := h
  have hinner : (0 : ℚ) ≤ (d.ip : ℚ) + (d.tenth : ℚ) / 10 := by positivity
  have habs : |dec1Val d| * 10 = ((10 * d.ip + d.tenth : ℕ) : ℚ) := by
    unfold dec1Val
    by_cases hn : d.neg
    · rw [if_pos hn, neg_one_mul, abs_neg, abs_of_nonneg hinner]
      push_cast
      ring
    · rw [if_neg hn, one_mul, abs_of_nonneg hinner]
      push_cast
      ring
  have hn10 : (rheZ (|dec1Val d| * 10)).toNat = 10 * d.ip + d.tenth := by
    rw [habs, rheZ_natCast]
    exact Int.toNat_natCast _
  have hdiv : (10 * d.ip + d.tenth) / 10 = d.ip := by omega
  have hmod : (10 * d.ip + d.tenth) % 10 = d.tenth := by omega
  have hneg_iff : dec1Val d < 0 ↔ d.neg = true := by
    unfold dec1Val
    constructor
    · intro hlt
      by_cases hn : d.neg
      · exact hn
      · rw [if_neg hn, one_mul] at hlt
        have : (0 : ℚ) ≤ (d.ip : ℚ) + (d.tenth : ℚ) / 10 := by positivity
        linarith
    · intro hn
      rw [if_pos hn]
      have hpos : (0 : ℚ) < (d.ip : ℚ) + (d.tenth : ℚ) / 10 := by
        rcases Nat.eq_zero_or_pos d.ip with hip | hip
        · have htn : d.tenth ≠ 0 := fun htz => hz hn ⟨hip, htz⟩
          have h1 : (1 : ℚ) ≤ (d.tenth : ℚ) := by exact_mod_cast Nat.one_le_iff_ne_zero.mpr htn
          have : (0 : ℚ) ≤ (d.ip : ℚ) := by positivity
          linarith
        · have h1 : (1 : ℚ) ≤ (d.ip : ℚ) := by exact_mod_cast hip
          have : (0 : ℚ) ≤ (d.tenth : ℚ) / 10 := by positivity
          linarith
      linarith
  unfold formatFix1
  rw [hn10, hdiv, hmod, natRepr_small ht]
  by_cases hn : d.neg
  · rw [if_pos (hneg_iff.mpr hn)]
    unfold dec1Str
    rw [if_pos hn]
    show String.mk ((('-' :: natRepr d.ip) ++ ['.']) ++ [digitChar d.tenth]) =
      String.mk (['-'] ++ natRepr d.ip ++ '.' :: [digitChar d.tenth])
    congr 1
    simp
  · rw [if_neg (fun hlt => hn (hneg_iff.mp hlt))]
    unfold dec1Str
    rw [if_neg hn]
    show String.mk ((natRepr d.ip ++ ['.']) ++ [digitChar d.tenth]) =
      String.mk ([] ++ natRepr d.ip ++ '.' :: [digitChar d.tenth])
    congr 1
    simp

theorem dec1Str_isEmpty (d : Dec1) : (dec1Str d).isEmpty = false := by
  obtain ⟨c, cs, hcs, _⟩ := dec1Str_head d
  rw [hcs]
  rfl

theorem regexMeanSD_render (d1 d2 : Dec1) (h1 : d1.tenth < 10) (h2 : d2.tenth < 10) :
    regexMeanSD (dec1Str d1 ++ ' ' :: '±' :: ' ' :: dec1Str d2) =
      some (dec1Str d1, dec1Str d2) := by
  obtain ⟨c2, cs2, hcs2, hsp2, _, _⟩ := dec1Str_head_props d2
  have htake : (dec1Str d1 ++ ' ' :: '±' :: ' ' :: dec1Str d2).takeWhile classNum =
      dec1Str d1 :=
    takeWhile_append_cons _ (dec1Str_all_classNum d1 h1) (by decide)
  have hdrop : (dec1Str d1 ++ ' ' :: '±' :: ' ' :: dec1Str d2).dropWhile classNum =
      ' ' :: '±' :: ' ' :: dec1Str d2 :=
    dropWhile_append_cons _ (dec1Str_all_classNum d1 h1) (by decide)
  have hsp : (' ' :: '±' :: ' ' :: dec1Str d2).dropWhile isSpaceChar =
      '±' :: ' ' :: dec1Str d2 := by
    rw [List.dropWhile_cons_of_pos (by decide), List.dropWhile_cons_of_neg (by decide)]
  have hsp' : (' ' :: dec1Str d2).dropWhile isSpaceChar = dec1Str d2 := by
    rw [List.dropWhile_cons_of_pos (by decide), hcs2,
      List.dropWhile_cons_of_neg (by simp [hsp2])]
  have htake2 : (dec1Str d2).takeWhile classNum = dec1Str d2 :=
    takeWhile_all (dec1Str_all_classNum d2 h2)
  simp only [regexMeanSD, htake, hdrop, hsp, hsp', htake2, dec1Str_isEmpty,
    Bool.false_eq_true, if_false, reduceIte]

theorem regexMedianIQR_render (d1 d2 d3 : Dec1)
    (h1 : d1.tenth < 10) (h2 : d2.tenth < 10) (h3 : d3.tenth < 10) :
    regexMedianIQR
        (dec1Str d1 ++ ' ' :: '[' :: (dec1Str d2 ++ ',' :: ' ' :: (dec1Str d3 ++ [']']))) =
      some (dec1Str d1, dec1Str d2, dec1Str d3) := by
  obtain ⟨c3, cs3, hcs3, hsp3, _, _⟩ := dec1Str_head_props d3
  have htake : (dec1Str d1 ++ ' ' :: '[' ::
      (dec1Str d2 ++ ',' :: ' ' :: (dec1Str d3 ++ [']']))).takeWhile classNum = dec1Str d1 :=
    takeWhile_append_cons _ (dec1Str_all_classNum d1 h1) (by decide)
  have hdrop : (dec1Str d1 ++ ' ' :: '[' ::
      (dec1Str d2 ++ ',' :: ' ' :: (dec1Str d3 ++ [']']))).dropWhile classNum =
      ' ' :: '[' :: (dec1Str d2 ++ ',' :: ' ' :: (dec1Str d3 ++ [']'])) :=
    dropWhile_append_cons _ (dec1Str_all_classNum d1 h1) (by decide)
  have hsp : (' ' :: '[' :: (dec1Str d2 ++ ',' :: ' ' ::
      (dec1Str d3 ++ [']']))).dropWhile isSpaceChar =
      '[' :: (dec1Str d2 ++ ',' :: ' ' :: (dec1Str d3 ++ [']'])) := by
    rw [List.dropWhile_cons_of_pos (by decide), List.dropWhile_cons_of_neg (by decide)]
  have htake2 : (dec1Str d2 ++ ',' :: ' ' :: (dec1Str d3 ++ [']'])).takeWhile classNum =
      dec1Str d2 :=
    takeWhile_append_cons _ (dec1Str_all_classNum d2 h2) (by decide)
  have hdrop2 : (dec1Str d2 ++ ',' :: ' ' :: (dec1Str d3 ++ [']'])).dropWhile classNum =
      ',' :: ' ' :: (dec1Str d3 ++ [']']) :=
    dropWhile_append_cons _ (dec1Str_all_classNum d2 h2) (by decide)
  have hsp' : (' ' :: (dec1Str d3 ++ [']'])).dropWhile isSpaceChar = dec1Str d3 ++ [']'] := by
    rw [List.dropWhile_cons_of_pos (by decide), hcs3, List.cons_append,
      List.dropWhile_cons_of_neg (by simp [hsp3])]
  have htake3 : (dec1Str d3 ++ [']']).takeWhile classNum = dec1Str d3 :=
    takeWhile_append_cons _ (dec1Str_all_classNum d3 h3) (by decide)
  have hdrop3 : (dec1Str d3 ++ [']']).dropWhile classNum = [']'] :=
    dropWhile_append_cons _ (dec1Str_all_classNum d3 h3) (by decide)
  have hie3 : (dec1Str d3 ++ [']']).isEmpty = false := by
    rw [hcs3]; rfl
  simp only [regexMedianIQR, htake, hdrop, hsp, htake2, hdrop2, hsp', htake3, hdrop3,
    dec1Str_isEmpty, hie3, Bool.false_eq_true, if_false, reduceIte]

theorem mk_ne_sentinel {c : Char} {cs : List Char} (hn : c ≠ 'n') (hl : c ≠ '<') :
    ¬ isSentinel (String.mk (c :: cs)) := by
  rintro (h | h | h)
  · have h' : c :: cs = ['n', 'a', 'n'] := congrArg String.data h
    simp only [List.cons.injEq] at h'
    exact hn h'.1
  · have h' : c :: cs = ['<', 'N', 'A', '>'] := congrArg String.data h
    simp only [List.cons.injEq] at h'
    exact hl h'.1
  · have h' : c :: cs = [] := congrArg String.data h
    exact List.cons_ne_nil c cs h'

theorem parse_meanSDStr (d1 d2 : Dec1) (h1 : d1.canon) (h2 : d2.canon) :
    parse_mean_sd (some (meanSDStr d1 d2)) = .ok (some (dec1Val d1, dec1Val d2)) := by
  obtain ⟨c1, cs1, hcs1, _, hn1, hl1⟩ := dec1Str_head_props d1
  have hsent : ¬ isSentinel (meanSDStr d1 d2) := by
    rw [show meanSDStr d1 d2 =
          String.mk (c1 :: (cs1 ++ ' ' :: '±' :: ' ' :: dec1Str d2)) by
        unfold meanSDStr; rw [hcs1]; rfl]
    exact mk_ne_sentinel hn1 hl1
  have hregex : regexMeanSD (meanSDStr d1 d2).data = some (dec1Str d1, dec1Str d2) :=
    regexMeanSD_render d1 d2 h1.1 h2.1
  simp only [parse_mean_sd, if_neg hsent, hregex, pyFloat_dec1 d1 h1.1, pyFloat_dec1 d2 h2.1]

theorem parse_medianIQRStr (d1 d2 d3 : Dec1) (h1 : d1.canon) (h2 : d2.canon) (h3 : d3.canon) :
    parse_median_iqr (some (medianIQRStr d1 d2 d3)) =
      .ok (some (dec1Val d1, dec1Val d2, dec1Val d3)) := by
  obtain ⟨c1, cs1, hcs1, _, hn1, hl1⟩ := dec1Str_head_props d1
  have hsent : ¬ isSentinel (medianIQRStr d1 d2 d3) := by
    rw [show medianIQRStr d1 d2 d3 =
          String.mk (c1 :: (cs1 ++ ' ' :: '[' ::
            (dec1Str d2 ++ ',' :: ' ' :: (dec1Str d3 ++ [']'])))) by
        unfold medianIQRStr; rw [hcs1]; rfl]
    exact mk_ne_sentinel hn1 hl1
  have hregex : regexMedianIQR (medianIQRStr d1 d2 d3).data =
      some (dec1Str d1, dec1Str d2, dec1Str d3) :=
    regexMedianIQR_render d1 d2 d3 h1.1 h2.1 h3.1
  simp only [parse_median_iqr, if_neg hsent, hregex, pyFloat_dec1 d1 h1.1,
    pyFloat_dec1 d2 h2.1, pyFloat_dec1 d3 h3.1]

theorem format_meanSDStr (d1 d2 : Dec1) (h1 : d1.canon) (h2 : d2.canon) :
    format_mean_sd (dec1Val d1) (dec1Val d2) = meanSDStr d1 d2 := by
  unfold format_mean_sd meanSDStr
  rw [formatFix1_dec1 d1 h1, formatFix1_dec1 d2 h2]
  show String.mk (((dec1Str d1 ++ [' ', '±', ' ']) ++ dec1Str d2)) =
    String.mk (dec1Str d1 ++ ' ' :: '±' :: ' ' :: dec1Str d2)
  congr 1
  simp

theorem format_medianIQRStr (d1 d2 d3 : Dec1)
    (h1 : d1.canon) (h2 : d2.canon) (h3 : d3.canon) :
    format_median_iqr (dec1Val d1) (dec1Val d2) (dec1Val d3) = medianIQRStr d1 d2 d3 := by
  unfold format_median_iqr medianIQRStr
  rw [formatFix1_dec1 d1 h1, formatFix1_dec1 d2 h2, formatFix1_dec1 d3 h3]
  show String.mk (((((dec1Str d1 ++ [' ', '[']) ++ dec1Str d2) ++ [',', ' ']) ++ dec1Str d3)
      ++ [']']) =
    String.mk (dec1Str d1 ++ ' ' :: '[' :: (dec1Str d2 ++ ',' :: ' ' :: (dec1Str d3 ++ [']'])))
  congr 1
  simp

theorem formatFix1_concrete (q : ℚ) (neg : Bool) (ip t : ℕ) (ht : t < 10)
    (hz : neg = true → ¬(ip = 0 ∧ t = 0)) (hq : q = dec1Val ⟨neg, ip, t⟩) :
    formatFix1 q = String.mk (dec1Str ⟨neg, ip, t⟩) := by
  rw [hq]
  exact formatFix1_dec1 _ ⟨ht, hz⟩

/-! Claim theorems. -/

/-- C3: the statistic family of a field label is decided by a fixed priority
order with first match winning: Count when the label is `"N"`, starts with
`"N "`, is `"Unique Patients"` or contains `"Patients"`; otherwise MeanSD when
it contains `"(mean ± SD)"`; otherwise MedianIQR when it contains
`"(median [IQR])"`; otherwise the CountPct fallback.  Consequently
`"N with ICU stay"` is Count, `"BMI (mean ± SD)"` is MeanSD and
`"Antibiotic: Vancomycin"` is CountPct. -/
theorem classify_priority_spec :
    (∀ field, countCond field → classify field = .count) ∧
    (∀ field, ¬ countCond field → hasSub "(mean ± SD)" field = true →
      classify field = .meanSD) ∧
    (∀ field, ¬ countCond field → hasSub "(mean ± SD)" field = false →
      hasSub "(median [IQR])" field = true → classify field = .medianIQR) ∧
    (∀ field, ¬ countCond field → hasSub "(mean ± SD)" field = false →
      hasSub "(median [IQR])" field = false → classify field = .countPct) ∧
    classify "N with ICU stay" = .count ∧
    classify "BMI (mean ± SD)" = .meanSD ∧
    classify "Antibiotic: Vancomycin" = .countPct := by
  refine ⟨?_, ?_, ?_, ?_, by decide, by decide, by decide⟩
  · intro f h; simp [classify, h]
  · intro f h1 h2; simp [classify, h1, h2]
  · intro f h1 h2 h3; simp [classify, h1, h2, h3]
  · intro f h1 h2 h3; simp [classify, h1, h2, h3]

/-- Witness for C3 at concrete labels from every branch of the priority
order. -/
theorem classify_priority_spec_witness :
    classify "Unique Patients" = .count ∧
    classify "Sodium (median [IQR])" = .medianIQR ∧
    classify "Sex: Male" = .countPct := by
  refine ⟨classify_priority_spec.1 "Unique Patients" ?_,
    classify_priority_spec.2.2.1 "Sodium (median [IQR])" ?_ ?_ ?_,
    classify_priority_spec.2.2.2.1 "Sex: Male" ?_ ?_ ?_⟩ <;> decide

/-- C6: Count pooling is the decimal string of the sum of the present values,
with absent entries contributing nothing; `[5, None, 3]` pools to `"8"` and
`[None, None]` pools to `"0"`. -/
theorem aggregate_n_spec :
    (∀ vs : List (Option ℤ), aggregate_n vs = intStr (vs.reduceOption).sum) ∧
    aggregate_n [some 5, none, some 3] = "8" ∧
    aggregate_n [none, none] = "0" :=
  ⟨aggregate_n_eq, rfl, rfl⟩

/-- C4: MeanSD pooling is the unweighted arithmetic mean of the site means and
of the site SDs, computed independently and formatted to one decimal place,
with sentinel `"nan"` when no site has a value; `[(10, 2), (20, 4)]` pools to
`"15.0 ± 3.0"`. -/
theorem aggregate_means_spec :
    (∀ vs : List (Option (ℚ × ℚ)),
      aggregate_means vs =
        if vs.reduceOption = [] then "nan"
        else
          format_mean_sd ((vs.reduceOption.map Prod.fst).sum / vs.reduceOption.length)
            ((vs.reduceOption.map Prod.snd).sum / vs.reduceOption.length)) ∧
    aggregate_means [some (10, 2), some (20, 4)] = "15.0 ± 3.0" := by
  constructor
  · intro vs
    by_cases h : vs.reduceOption = []
    · simp [aggregate_means, h]
    · simp [aggregate_means, h, npMean]
  · show format_mean_sd (npMean [(10 : ℚ), 20]) (npMean [(2 : ℚ), 4]) = "15.0 ± 3.0"
    have h1 : npMean [(10 : ℚ), 20] = 15 := by norm_num [npMean]
    have h2 : npMean [(2 : ℚ), 4] = 3 := by norm_num [npMean]
    rw [h1, h2]
    unfold format_mean_sd
    rw [formatFix1_concrete 15 false 15 0 (by omega) (by simp) (by norm_num [dec1Val]),
      formatFix1_concrete 3 false 3 0 (by omega) (by simp) (by norm_num [dec1Val])]
    rfl

/-- C5: MedianIQR pooling takes the median of the site medians, of the site
Q1s and of the site Q3s independently, formatted to one decimal place, with
`"nan"` when no site has a value; `[(5, 1, 9), (7, 2, 11)]` pools to median
`6.0`, Q1 `1.5`, Q3 `10.0`. -/
theorem aggregate_medians_spec :
    (∀ vs : List (Option (ℚ × ℚ × ℚ)),
      aggregate_medians vs =
        if vs.reduceOption = [] then "nan"
        else
          format_median_iqr (npMedian (vs.reduceOption.map (fun v => v.1)))
            (npMedian (vs.reduceOption.map (fun v => v.2.1)))
            (npMedian (vs.reduceOption.map (fun v => v.2.2)))) ∧
    aggregate_medians [some (5, 1, 9), some (7, 2, 11)] =
      format_median_iqr 6 (3 / 2 : ℚ) 10 ∧
    aggregate_medians [some (5, 1, 9), some (7, 2, 11)] = "6.0 [1.5, 10.0]" := by
  have hm1 : npMedian [(5 : ℚ), 7] = 6 := by norm_num [npMedian, sortQ, insortQ]
  have hm2 : npMedian [(1 : ℚ), 2] = 3 / 2 := by norm_num [npMedian, sortQ, insortQ]
  have hm3 : npMedian [(9 : ℚ), 11] = 10 := by norm_num [npMedian, sortQ, insortQ]
  have hconc : aggregate_medians [some (5, 1, 9), some (7, 2, 11)] =
      format_median_iqr 6 (3 / 2 : ℚ) 10 := by
    show format_median_iqr (npMedian [(5 : ℚ), 7]) (npMedian [(1 : ℚ), 2])
        (npMedian [(9 : ℚ), 11]) = format_median_iqr 6 (3 / 2 : ℚ) 10
    rw [hm1, hm2, hm3]
  refine ⟨?_, hconc, ?_⟩
  · intro vs
    by_cases h : vs.reduceOption = []
    · simp [aggregate_medians, h]
    · simp [aggregate_medians, h]
  · rw [hconc]
    unfold format_median_iqr
    rw [formatFix1_concrete 6 false 6 0 (by omega) (by simp) (by norm_num [dec1Val]),
      formatFix1_concrete (3 / 2) false 1 5 (by omega) (by simp) (by norm_num [dec1Val]),
      formatFix1_concrete 10 false 10 0 (by omega) (by simp) (by norm_num [dec1Val])]
    rfl

/-- C2 counterexample: `parse_mean_sd` on `"1.2.3 ± 4"` is matched by the
regex, and `float("1.2.3")` then raises an uncaught ValueError: the parser
does not return a "no value" result on every input. -/
theorem parse_mean_sd_raises : parse_mean_sd (some "1.2.3 ± 4") = .error () := rfl

/-- C2 (amended): the parsers return a decoded value or "no value" and never
raise on None, on the sentinels `"nan"`/`"<NA>"`/`""` and on any string the
format regex does not match; on a regex match they decode the captured groups
whenever every group is a valid float literal; `parse_n` never raises at all;
but the three tuple parsers raise ValueError exactly when the regex matches
and a captured group is not a valid float literal, e.g.
`parse_mean_sd "1.2.3 ± 4"`. -/
theorem parsers_no_raise_spec :
    parse_mean_sd none = .ok none ∧ parse_median_iqr none = .ok none ∧
    parse_count_pct none = .ok none ∧ parse_n none = none ∧
    (∀ s : String, isSentinel s →
      parse_mean_sd (some s) = .ok none ∧ parse_median_iqr (some s) = .ok none ∧
      parse_count_pct (some s) = .ok none ∧ parse_n (some s) = none) ∧
    (∀ s : String, regexMeanSD s.data = none → parse_mean_sd (some s) = .ok none) ∧
    (∀ s : String, regexMedianIQR s.data = none → parse_median_iqr (some s) = .ok none) ∧
    (∀ s : String, regexCountPct s.data = none → parse_count_pct (some s) = .ok none) ∧
    (∀ (s : String) (g1 g2 : List Char), ¬ isSentinel s →
      regexMeanSD s.data = some (g1, g2) →
      (∀ a b : ℚ, pyFloat g1 = some a → pyFloat g2 = some b →
        parse_mean_sd (some s) = .ok (some (a, b))) ∧
      (pyFloat g1 = none ∨ pyFloat g2 = none → parse_mean_sd (some s) = .error ())) ∧
    (∀ (s : String) (g1 g2 g3 : List Char), ¬ isSentinel s →
      regexMedianIQR s.data = some (g1, g2, g3) →
      (∀ a b c : ℚ, pyFloat g1 = some a → pyFloat g2 = some b → pyFloat g3 = some c →
        parse_median_iqr (some s) = .ok (some (a, b, c))) ∧
      (pyFloat g1 = none ∨ pyFloat g2 = none ∨ pyFloat g3 = none →
        parse_median_iqr (some s) = .error ())) ∧
    (∀ (s : String) (g1 g2 : List Char), ¬ isSentinel s →
      regexCountPct s.data = some (g1, g2) →
      (∀ p : ℚ, pyFloat g2 = some p →
        parse_count_pct (some s) = .ok (some (natOfDigits g1, p))) ∧
      (pyFloat g2 = none → parse_count_pct (some s) = .error ())) ∧
    (∀ v : Option String, parse_n v = none ∨ ∃ z : ℤ, parse_n v = some z) ∧
    parse_mean_sd (some "1.2.3 ± 4") = .error () := by
  refine ⟨rfl, rfl, rfl, rfl, ?_, ?_, ?_, ?_, ?_, ?_, ?_, ?_, rfl⟩
  · intro s hs
    exact ⟨by simp [parse_mean_sd, hs], by simp [parse_median_iqr, hs],
      by simp [parse_count_pct, hs], by simp [parse_n, hs]⟩
  · intro s hr
    by_cases hs : isSentinel s
    · simp [parse_mean_sd, hs]
    · simp [parse_mean_sd, hs, hr]
  · intro s hr
    by_cases hs : isSentinel s
    · simp [parse_median_iqr, hs]
    · simp [parse_median_iqr, hs, hr]
  · intro s hr
    by_cases hs : isSentinel s
    · simp [parse_count_pct, hs]
    · simp [parse_count_pct, hs, hr]
  · intro s g1 g2 hs hreg
    constructor
    · intro a b h1 h2
      simp [parse_mean_sd, hs, hreg, h1, h2]
    · intro herr
      rcases herr with h1 | h2
      · cases h2' : pyFloat g2 <;> simp [parse_mean_sd, hs, hreg, h1, h2']
      · cases h1' : pyFloat g1 <;> simp [parse_mean_sd, hs, hreg, h1', h2]
  · intro s g1 g2 g3 hs hreg
    constructor
    · intro a b c h1 h2 h3
      simp [parse_median_iqr, hs, hreg, h1, h2, h3]
    · intro herr
      rcases herr with h1 | h2 | h3
      · cases h2' : pyFloat g2 <;> cases h3' : pyFloat g3 <;>
          simp [parse_median_iqr, hs, hreg, h1, h2', h3']
      · cases h1' : pyFloat g1 <;> cases h3' : pyFloat g3 <;>
          simp [parse_median_iqr, hs, hreg, h1', h2, h3']
      · cases h1' : pyFloat g1 <;> cases h2' : pyFloat g2 <;>
          simp [parse_median_iqr, hs, hreg, h1', h2', h3]
  · intro s g1 g2 hs hreg
    constructor
    · intro p hp
      simp [parse_count_pct, hs, hreg, hp]
    · intro hp
      simp [parse_count_pct, hs, hreg, hp]
  · intro v
    cases hv : parse_n v
    · exact Or.inl rfl
    · exact Or.inr ⟨_, rfl⟩

/-- Witness for C2 (amended) at the sentinel `"<NA>"`, a non-matching string,
a decoding success and a raising input. -/
theorem parsers_no_raise_spec_witness :
    parse_n (some "<NA>") = none ∧ parse_mean_sd (some "hello") = .ok none ∧
    parse_count_pct (some "42 (17%)") = .ok (some (42, 17)) ∧
    parse_median_iqr (some "1.2.3 [1, 2]") = .error () := by
  obtain ⟨-, -, -, -, hsent, hm0, -, -, -, hmedP, hcntP, -, -⟩ := parsers_no_raise_spec
  refine ⟨(hsent "<NA>" (Or.inr (Or.inl rfl))).2.2.2, hm0 "hello" rfl, ?_, ?_⟩
  · have h := (hcntP "42 (17%)" ['4', '2'] ['1', '7'] (by decide) (by decide)).1
      ((17 : ℕ) : ℚ) rfl
    rw [h]
    show Except.ok (some ((42 : ℕ), ((17 : ℕ) : ℚ))) = _
    norm_num
  · exact (hmedP "1.2.3 [1, 2]" ['1', '.', '2', '.', '3'] ['1'] ['2'] (by decide)
      (by decide)).2 (Or.inl (by decide))

/-- C7: a canonical mean-SD string whose two numbers carry exactly one decimal
place, and likewise a canonical median-IQR string, decode with the
corresponding parser to the expected numbers and re-encode with the
corresponding formatter to the identical string. -/
theorem roundtrip_spec :
    ∀ d1 d2 d3 d4 d5 : Dec1, d1.canon → d2.canon → d3.canon → d4.canon → d5.canon →
      parse_mean_sd (some (meanSDStr d1 d2)) = .ok (some (dec1Val d1, dec1Val d2)) ∧
      format_mean_sd (dec1Val d1) (dec1Val d2) = meanSDStr d1 d2 ∧
      parse_median_iqr (some (medianIQRStr d3 d4 d5)) =
        .ok (some (dec1Val d3, dec1Val d4, dec1Val d5)) ∧
      format_median_iqr (dec1Val d3) (dec1Val d4) (dec1Val d5) = medianIQRStr d3 d4 d5 :=
  fun d1 d2 d3 d4 d5 h1 h2 h3 h4 h5 =>
    ⟨parse_meanSDStr d1 d2 h1 h2, format_meanSDStr d1 d2 h1 h2,
     parse_medianIQRStr d3 d4 d5 h3 h4 h5, format_medianIQRStr d3 d4 d5 h3 h4 h5⟩

/-- Witness for C7 at `"12.3 ± 4.5"` and `"5.0 [2.0, 9.0]"`. -/
theorem roundtrip_spec_witness :
    meanSDStr ⟨false, 12, 3⟩ ⟨false, 4, 5⟩ = "12.3 ± 4.5" ∧
    medianIQRStr ⟨false, 5, 0⟩ ⟨false, 2, 0⟩ ⟨false, 9, 0⟩ = "5.0 [2.0, 9.0]" ∧
    parse_mean_sd (some (meanSDStr ⟨false, 12, 3⟩ ⟨false, 4, 5⟩)) =
      .ok (some (dec1Val ⟨false, 12, 3⟩, dec1Val ⟨false, 4, 5⟩)) ∧
    format_mean_sd (dec1Val ⟨false, 12, 3⟩) (dec1Val ⟨false, 4, 5⟩) =
      meanSDStr ⟨false, 12, 3⟩ ⟨false, 4, 5⟩ ∧
    parse_median_iqr (some (medianIQRStr ⟨false, 5, 0⟩ ⟨false, 2, 0⟩ ⟨false, 9, 0⟩)) =
      .ok (some (dec1Val ⟨false, 5, 0⟩, dec1Val ⟨false, 2, 0⟩, dec1Val ⟨false, 9, 0⟩)) ∧
    format_median_iqr (dec1Val ⟨false, 5, 0⟩) (dec1Val ⟨false, 2, 0⟩)
        (dec1Val ⟨false, 9, 0⟩) =
      medianIQRStr ⟨false, 5, 0⟩ ⟨false, 2, 0⟩ ⟨false, 9, 0⟩ := by
  have h := roundtrip_spec ⟨false, 12, 3⟩ ⟨false, 4, 5⟩ ⟨false, 5, 0⟩ ⟨false, 2, 0⟩
    ⟨false, 9, 0⟩ (by constructor <;> simp) (by constructor <;> simp)
    (by constructor <;> simp) (by constructor <;> simp) (by constructor <;> simp)
  exact ⟨rfl, rfl, h.1, h.2.1, h.2.2.1, h.2.2.2⟩

/-- C8: field-name normalization rewrites exactly `"Sex: male"` to
`"Sex: Male"` and `"Sex: female"` to `"Sex: Female"`, leaves every other key
and all values unchanged, is applied by the loader to every (site, cohort)
FieldMap, and merges a `"Sex: male"` site with a `"Sex: Male"` site into one
output field. -/
theorem normalize_spec :
    renameKey "Sex: male" = "Sex: Male" ∧
    renameKey "Sex: female" = "Sex: Female" ∧
    (∀ k, k ≠ "Sex: male" → k ≠ "Sex: female" → renameKey k = k) ∧
    (∀ m : FieldMap, (m.map (fun p => renameKey p.1)).Nodup →
      normalize_field_names m = m.map (fun p => (renameKey p.1, p.2))) ∧
    (∀ data : List Site, loadNormalize data = data.map (fun s =>
      { site_name := s.site_name
        cohort_groups := s.cohort_groups.map (fun cm => (cm.1, normalize_field_names cm.2)) })) ∧
    allFieldNames (loadNormalize
      [⟨"siteA", [("total", [("Sex: male", some "1 (50.0%)")])]⟩,
       ⟨"siteB", [("total", [("Sex: Male", some "2 (40.0%)")])]⟩]) = ["Sex: Male"] := by
  refine ⟨rfl, rfl, ?_, normalize_nodup_renamed, fun _ => rfl, by decide⟩
  intro k h1 h2
  simp [renameKey, h1, h2]

/-- Witness for C8: an untouched key passes through, and a map without
collisions is renamed pointwise. -/
theorem normalize_spec_witness :
    renameKey "Age (mean ± SD)" = "Age (mean ± SD)" ∧
    normalize_field_names [("Sex: male", some "4 (40.0%)"), ("N", some "10")] =
      [("Sex: Male", some "4 (40.0%)"), ("N", some "10")] := by
  constructor
  · exact normalize_spec.2.2.1 "Age (mean ± SD)" (by decide) (by decide)
  · have h := normalize_spec.2.2.2.1 [("Sex: male", some "4 (40.0%)"), ("N", some "10")]
      (by decide)
    rw [h]
    rfl

/-- C10: a FieldMap holding both a variant key and its canonical form loses a
key under normalization: the result is strictly shorter and the canonical key
holds the value of the later-iterated entry, silently discarding the other. -/
theorem normalize_collision_spec :
    ∀ (a b c : FieldMap) (kf ks : String) (vf vs : Option String),
      renameKey kf = renameKey ks → kf ≠ ks →
      (∀ p ∈ c, renameKey p.1 ≠ renameKey ks) →
      (normalize_field_names (a ++ (kf, vf) :: b ++ (ks, vs) :: c)).length <
          (a ++ (kf, vf) :: b ++ (ks, vs) :: c).length ∧
        lookupKey (renameKey ks) (normalize_field_names (a ++ (kf, vf) :: b ++ (ks, vs) :: c)) =
          some vs := by
  intro a b c kf ks vf vs hren hne hc
  have hsplit : normalize_field_names (a ++ (kf, vf) :: b ++ (ks, vs) :: c) =
      c.foldl normStep
        (normStep (b.foldl normStep (normStep (a.foldl normStep []) (kf, vf))) (ks, vs)) := by
    rw [normalize_eq_foldl]
    simp [List.foldl_append]
  have hs2 : normStep (a.foldl normStep []) (kf, vf) =
      upsert (a.foldl normStep []) (renameKey ks) vf := by
    rw [normStep, hren]
  have hlen1 : (a.foldl normStep ([] : FieldMap)).length ≤ a.length := by
    simpa using length_foldl_norm_le a []
  have hlen2 : (normStep (a.foldl normStep []) (kf, vf)).length ≤
      (a.foldl normStep ([] : FieldMap)).length + 1 :=
    length_upsert_le _ _ _
  have hlen3 : (b.foldl normStep (normStep (a.foldl normStep []) (kf, vf))).length ≤
      (normStep (a.foldl normStep []) (kf, vf)).length + b.length :=
    length_foldl_norm_le b _
  have hsome2 : (lookupKey (renameKey ks) (normStep (a.foldl normStep []) (kf, vf))).isSome := by
    rw [hs2, lookupKey_upsert_self]
    rfl
  have hsome3 :
      (lookupKey (renameKey ks)
        (b.foldl normStep (normStep (a.foldl normStep []) (kf, vf)))).isSome :=
    isSome_lookup_foldl_norm b _ hsome2
  have hlen4 :
      (normStep (b.foldl normStep (normStep (a.foldl normStep []) (kf, vf))) (ks, vs)).length =
        (b.foldl normStep (normStep (a.foldl normStep []) (kf, vf))).length :=
    length_upsert_isSome _ _ hsome3
  have hlen5 :
      (c.foldl normStep
        (normStep (b.foldl normStep (normStep (a.foldl normStep []) (kf, vf)))
          (ks, vs))).length ≤
        (normStep (b.foldl normStep (normStep (a.foldl normStep []) (kf, vf)))
          (ks, vs)).length + c.length :=
    length_foldl_norm_le c _
  constructor
  · rw [hsplit]
    simp only [List.length_append, List.length_cons]
    omega
  · rw [hsplit, lookup_foldl_norm_no_match c hc]
    exact lookupKey_upsert_self _ _ _

/-- Witness for C10 at the two-entry collision map. -/
theorem normalize_collision_spec_witness :
    (normalize_field_names
        [("Sex: male", some "1 (50.0%)"), ("Sex: Male", some "2 (66.7%)")]).length < 2 ∧
    lookupKey "Sex: Male"
        (normalize_field_names
          [("Sex: male", some "1 (50.0%)"), ("Sex: Male", some "2 (66.7%)")]) =
      some (some "2 (66.7%)") := by
  have h := normalize_collision_spec [] [] [] "Sex: male" "Sex: Male"
    (some "1 (50.0%)") (some "2 (66.7%)") rfl (by decide) (by intro p hp; simp at hp)
  simpa using h

/-- C1: for a CountPct field the pooled cell sums the parseable site counts
and recomputes the percentage as `100 * summed_count / total_n`, where
`total_n` is the pooled Count of the cohort's `"N"` field obtained in the
first pass (shown equal to the sum of the parsed per-site N values, and to the
pooled `"N"` cell of the second pass); the sentinel `"0 (0.0%)"` is produced
when no site parses or `total_n` is zero, so the division never runs on a zero
denominator; and the per-site percentage components are never used. -/
theorem countpct_pooling_spec :
    ∀ (data : List Site) (cohort field : String) (ps : List (Option (ℕ × ℚ))),
      classify field = .countPct →
      (siteValues data cohort field).mapM parse_count_pct = Except.ok ps →
      (aggCell data cohort field (totalN data cohort) =
        Except.ok
          (if ps.reduceOption = [] ∨ nSum data cohort = 0 then "0 (0.0%)"
           else
             format_count_pct (ps.reduceOption.map Prod.fst).sum
               (100 * ((ps.reduceOption.map Prod.fst).sum : ℚ) / (nSum data cohort : ℚ)))) ∧
      totalN data cohort = nSum data cohort ∧
      aggCell data cohort "N" (totalN data cohort) = Except.ok (intStr (nSum data cohort)) ∧
      (∀ (qs : List (Option (ℕ × ℚ))) (tn : ℤ),
        ps.reduceOption.map Prod.fst = qs.reduceOption.map Prod.fst →
        aggregate_counts ps tn = aggregate_counts qs tn) := by
  intro data cohort field ps hclass hmapM
  refine ⟨?_, totalN_eq data cohort, ?_, ?_⟩
  · simp only [aggCell, hclass, hmapM, Except.map]
    rw [totalN_eq]
    unfold aggregate_counts
    by_cases hcond : ps.reduceOption = [] ∨ nSum data cohort = 0
    · rw [if_pos hcond, if_pos hcond]
    · rw [if_neg hcond, if_neg hcond]
      congr 1
      ring
  · have hcN : classify "N" = .count := by decide
    simp only [aggCell, hcN]
    rw [aggregate_n_eq, secondPassN]
  · intro qs tn hfst
    have hsum : (ps.reduceOption.map Prod.fst).sum = (qs.reduceOption.map Prod.fst).sum := by
      rw [hfst]
    have hemp : ps.reduceOption = [] ↔ qs.reduceOption = [] := by
      constructor <;> intro h
      · have h2 := hfst
        rw [h] at h2
        simp only [List.map_nil] at h2
        exact (List.map_eq_nil.mp h2.symm)
      · have h2 := hfst
        rw [h] at h2
        simp only [List.map_nil] at h2
        exact (List.map_eq_nil.mp h2)
    unfold aggregate_counts
    by_cases hp : ps.reduceOption = [] ∨ tn = 0
    · rw [if_pos hp, if_pos ?_]
      rcases hp with h | h
      · exact Or.inl (hemp.mp h)
      · exact Or.inr h
    · rw [if_neg hp, if_neg ?_, hsum]
      intro hq
      refine hp ?_
      rcases hq with h | h
      · exact Or.inl (hemp.mpr h)
      · exact Or.inr h

/-- Witness for C1 on a one-site document with N = 10 and a `"3 (30%)"`
CountPct cell. -/
theorem countpct_pooling_spec_witness :
    aggCell [⟨"s1", [("total", [("N", some "10"), ("Drained", some "3 (30%)")])]⟩]
        "total" "Drained"
        (totalN [⟨"s1", [("total", [("N", some "10"), ("Drained", some "3 (30%)")])]⟩]
          "total") =
      Except.ok "3 (30.0%)" ∧
    aggCell [⟨"s1", [("total", [("N", some "10"), ("Drained", some "3 (30%)")])]⟩]
        "total" "N"
        (totalN [⟨"s1", [("total", [("N", some "10"), ("Drained", some "3 (30%)")])]⟩]
          "total") =
      Except.ok "10" := by
  have hp : parse_count_pct (some "3 (30%)") = .ok (some (3, (30 : ℚ))) := by
    have hsent : ¬ isSentinel "3 (30%)" := by decide
    have hreg : regexCountPct ("3 (30%)").data = some (['3'], ['3', '0']) := by decide
    have hfl : pyFloat ['3', '0'] = some ((30 : ℕ) : ℚ) := rfl
    simp only [parse_count_pct, if_neg hsent, hreg, hfl]
    show Except.ok (some ((3 : ℕ), ((30 : ℕ) : ℚ))) = _
    norm_num
  have hmapM :
      (siteValues [⟨"s1", [("total", [("N", some "10"), ("Drained", some "3 (30%)")])]⟩]
          "total" "Drained").mapM parse_count_pct =
        Except.ok [some (3, (30 : ℚ))] := by
    have hv : siteValues [⟨"s1", [("total", [("N", some "10"), ("Drained", some "3 (30%)")])]⟩]
        "total" "Drained" = [some "3 (30%)"] := rfl
    rw [hv]
    simp only [List.mapM, List.mapM.loop, hp]
    rfl
  have h := countpct_pooling_spec
    [⟨"s1", [("total", [("N", some "10"), ("Drained", some "3 (30%)")])]⟩]
    "total" "Drained" [some (3, (30 : ℚ))] (by decide) hmapM
  constructor
  · rw [h.1]
    have hn : nSum [⟨"s1", [("total", [("N", some "10"), ("Drained", some "3 (30%)")])]⟩]
        "total" = 10 := rfl
    rw [hn, if_neg (by simp)]
    have hsum : (([some ((3 : ℕ), (30 : ℚ))].reduceOption.map Prod.fst)).sum = 3 := rfl
    rw [hsum]
    have hpct : 100 * ((3 : ℕ) : ℚ) / ((10 : ℤ) : ℚ) = 30 := by norm_num
    rw [hpct]
    unfold format_count_pct
    rw [formatFix1_concrete 30 false 30 0 (by omega) (by simp) (by norm_num [dec1Val])]
    rfl
  · rw [h.2.2.1]
    rfl

/-- C9 counterexample: with field `"X"` present only at site A, site B's View
B cell for `"X"` is the empty string, not the literal `"nan"` the claim
requires for missing cells. -/
theorem siteTable_missing_not_nan :
    siteTable [⟨"A", [("total", [("X", some "1 (100.0%)")])]⟩, ⟨"B", [("total", [])]⟩]
        "total" =
      [("A", [("X", "1 (100.0%)")]), ("B", [("X", "")])] ∧
    ("" : String) ≠ "nan" := ⟨rfl, by decide⟩

/-- C9 (amended): each View B cell is the site's raw string for the selected
cohort; a field missing from the site's cohort map yields the empty string
(the `.get(field, '')` default), while a null value or the literal string
`"nan"` yields `"nan"` and any other raw value passes through unchanged. -/
theorem siteTable_cell_spec :
    (∀ (fm : FieldMap) (f : String), lookupKey f fm = none → rawCell fm f = "") ∧
    (∀ (fm : FieldMap) (f : String), lookupKey f fm = some none → rawCell fm f = "nan") ∧
    (∀ (fm : FieldMap) (f s : String), lookupKey f fm = some (some s) →
      rawCell fm f = if s = "nan" then "nan" else s) ∧
    (∀ (data : List Site) (cohort : String) (i : ℕ) (site : Site), data[i]? = some site →
      (siteTable data cohort)[i]? =
        some (site.site_name,
          (allFieldNames data).map (fun f => (f, rawCell (getCohortMap site cohort) f)))) := by
  refine ⟨?_, ?_, ?_, ?_⟩
  · intro fm f h; simp [rawCell, h]
  · intro fm f h; simp [rawCell, h]
  · intro fm f s h; simp [rawCell, h]
  · intro data cohort i site h
    simp [siteTable, List.getElem?_map, h]

/-- Witness for C9 (amended) on each kind of cell. -/
theorem siteTable_cell_spec_witness :
    rawCell [] "X" = "" ∧ rawCell [("X", none)] "X" = "nan" ∧
    rawCell [("X", some "nan")] "X" = "nan" ∧
    rawCell [("X", some "7 (70.0%)")] "X" = "7 (70.0%)" := by
  refine ⟨siteTable_cell_spec.1 [] "X" rfl, siteTable_cell_spec.2.1 [("X", none)] "X" rfl,
    ?_, ?_⟩
  · have h := siteTable_cell_spec.2.2.1 [("X", some "nan")] "X" "nan" rfl
    simpa using h
  · have h := siteTable_cell_spec.2.2.1 [("X", some "7 (70.0%)")] "X" "7 (70.0%)" rfl
    simpa using h

end Agg
